import Mathlib

/-!
Verification of the data-cleaning pipeline in `src/data_cleaning.py`.

The script operates on pandas DataFrames.  A DataFrame is embedded as a
`Table`: an ordered header assigning each column a name and a dtype
(`numeric` or `object`), together with a list of rows, each row a list of
cell values aligned with the header.  A cell is a number, a string, or
missing (pandas `NaN`).  Numbers are modelled as integers: the pipeline
only ever compares them with `0`, so the distinction between ints and
floats is irrelevant to every property proved here.

Pandas semantics embedded below that matter for the proofs:
  * `df[col] >= 0` is `False` when the cell is `NaN`, so boolean-mask
    filtering on `>= 0` drops missing values as well as negatives;
  * `.str.strip()` on an object column trims strings, keeps `NaN` as
    `NaN`, and coerces non-string cells to `NaN`;
  * `dropna(subset=cols)` keeps exactly the rows with no missing value in
    the listed columns.
-/

namespace DataCleaning

/-- Column dtype as pandas infers it: numeric, or object (strings). -/
inductive Dtype where
  | numeric
  | object
deriving DecidableEq

/-- A single cell: a number, a string, or missing (`NaN`). -/
inductive Value where
  | num (x : Int)
  | text (s : String)
  | na
deriving DecidableEq

abbrev Row := List Value

/-- A pandas DataFrame: header (name and dtype per column, in order) plus rows. -/
structure Table where
  header : List (String × Dtype)
  rows : List Row
deriving DecidableEq

/-! ### Character-level helpers (Python string methods on ASCII data) -/

/-- Python whitespace as stripped by `str.strip()`:
space (32), tab (9), LF (10), VT (11), FF (12), CR (13). -/
def wsChar (c : Char) : Bool :=
  c.toNat = 32 || c.toNat = 9 || c.toNat = 10 || c.toNat = 11 || c.toNat = 12 || c.toNat = 13

/-- Drop leading and trailing whitespace, as Python `str.strip()`. -/
def trimChars (l : List Char) : List Char :=
  ((l.dropWhile wsChar).reverse.dropWhile wsChar).reverse

/-- Python `str.strip()`. -/
def pyStrip (s : String) : String := String.mk (trimChars s.data)

/-- Python `str.lower()` on one character (ASCII: 65-90 are
uppercase letters, mapped down by 32). -/
def lowerChar (c : Char) : Char :=
  if 65 ≤ c.toNat ∧ c.toNat ≤ 90 then Char.ofNat (c.toNat + 32) else c

/-- Python `str.replace(' ', '_')` on one character (32 is the space character). -/
def replChar (c : Char) : Char := if c.toNat = 32 then '_' else c

/-- Characters kept by the regex replacement `[^a-z0-9_] -> ''`:
lowercase letters (97-122), digits (48-57), underscore (95). -/
def isAllowedChar (c : Char) : Bool :=
  (97 ≤ c.toNat && c.toNat ≤ 122) || (48 ≤ c.toNat && c.toNat ≤ 57) || c.toNat = 95

/-- One column name through the four steps of `clean_column_names`
(src/data_cleaning.py lines 48-51): strip, lowercase,
space to underscore, remove every character outside `[a-z0-9_]`. -/
def normalizeChars (l : List Char) : List Char :=
  (((trimChars l).map lowerChar).map replChar).filter isAllowedChar

/-- Normalization of one column name, at the `String` level. -/
def normalizeName (s : String) : String := String.mk (normalizeChars s.data)

/-- Does `pat` occur as a contiguous substring at the start of `s`?
(Helper for the Python `in` operator on strings.) -/
def startsWithChars : List Char → List Char → Bool
  | [], _ => true
  | _ :: _, [] => false
  | p :: ps, c :: cs => p = c && startsWithChars ps cs

/-- Does `pat` occur as a contiguous substring of `s`? -/
def hasSub (pat : List Char) : List Char → Bool
  | [] => startsWithChars pat []
  | c :: cs => startsWithChars pat (c :: cs) || hasSub pat cs

/-- Python `pat in s` for strings. -/
def containsSub (pat s : String) : Bool := hasSub pat.data s.data

/-! ### Column lookup -/

/-- Model of `df[name]` on one row: the cell of the first column called `name`
(`NaN` when the name is absent or the row is too short). -/
def colVal : List (String × Dtype) → Row → String → Value
  | [], _, _ => Value.na
  | _ :: _, [], _ => Value.na
  | h :: hs, v :: vs, name => if h.1 = name then v else colVal hs vs name

/-- The dtype of the first column called `name`, when present. -/
def colDtype : List (String × Dtype) → String → Option Dtype
  | [], _ => none
  | h :: hs, name => if h.1 = name then some h.2 else colDtype hs name

/-- Does a cell value belong to a column of dtype `d`?  (`NaN` lives in
columns of either dtype.) -/
def valOk (d : Dtype) : Value → Bool
  | Value.na => true
  | Value.num _ => d = Dtype.numeric
  | Value.text _ => d = Dtype.object

/-- A row is well-typed for a header when it has one cell per column and
each cell matches its column dtype. -/
def rowWF : List (String × Dtype) → Row → Bool
  | [], [] => true
  | h :: hs, v :: vs => valOk h.2 v && rowWF hs vs
  | _, _ => false

/-- Well-typed table: every row matches the header, as for a DataFrame
produced by `pd.read_csv`. -/
def Table.wf (t : Table) : Bool := t.rows.all (rowWF t.header)

/-! ### Stage 2: `clean_column_names` (lines 34-53) -/

/-- Stage `clean_column_names`: rewrite every header name through
`normalizeName`; dtypes and rows are untouched. -/
def clean_column_names (t : Table) : Table :=
  { t with header := t.header.map (fun h => (normalizeName h.1, h.2)) }

/-! ### Stage 3: `strip_text_whitespace` (lines 56-73) -/

/-- Effect of `.str.strip()` on one cell of an object column: strings are trimmed,
`NaN` stays `NaN`, non-string cells are coerced to `NaN` by the `.str`
accessor. -/
def strVal : Value → Value
  | Value.text s => Value.text (pyStrip s)
  | Value.num _ => Value.na
  | Value.na => Value.na

/-- One cell under stage 3: object columns go through `strVal`, other
columns are untouched. -/
def stripEntry (h : String × Dtype) (v : Value) : Value :=
  if h.2 = Dtype.object then strVal v else v

/-- One row under stage 3. -/
def strip_row (hdr : List (String × Dtype)) (r : Row) : Row :=
  List.zipWith stripEntry hdr r

/-- Stage `strip_text_whitespace`: trim every cell of every object-dtype
column (`df.select_dtypes(include=['object'])`), leave the rest alone. -/
def strip_text_whitespace (t : Table) : Table :=
  { t with rows := t.rows.map (strip_row t.header) }

/-! ### Stage 4: `handle_missing_values` (lines 76-101) -/

/-- The name test of line 92: `'price' in col or 'quantity' in col or 'qty' in col`. -/
def critName (n : String) : Bool :=
  containsSub "price" n || containsSub "quantity" n || containsSub "qty" n

/-- Line 92: `[col for col in df.columns if 'price' in col or ...]`. -/
def critical_columns (t : Table) : List String :=
  (t.header.map Prod.fst).filter critName

/-- pandas `notna` on one cell. -/
def present : Value → Bool
  | Value.na => false
  | _ => true

/-- The row predicate of `df.dropna(subset=crit)`: every listed column
holds a present value. -/
def rowPresentAll (hdr : List (String × Dtype)) (crit : List String) (r : Row) : Bool :=
  crit.all (fun c => present (colVal hdr r c))

/-- Stage `handle_missing_values`: when critical columns exist, keep exactly the
rows with no missing value in any of them; otherwise pass through. -/
def handle_missing_values (t : Table) : Table :=
  if (critical_columns t).isEmpty then t
  else { t with rows := t.rows.filter (rowPresentAll t.header (critical_columns t)) }

/-- Line 99 runs (the warning is printed) exactly when no critical column
was identified. -/
def missing_value_warning (t : Table) : Bool := (critical_columns t).isEmpty

/-! ### Stage 5: `remove_invalid_rows` (lines 104-133) -/

/-- Line 119: `'quantity' in col or 'qty' in col`. -/
def qtyName (n : String) : Bool := containsSub "quantity" n || containsSub "qty" n

/-- Line 125: `'price' in col`. -/
def priceName (n : String) : Bool := containsSub "price" n

/-- The cell test of `df[col] >= 0` in a boolean mask: true only for a
non-negative number — in particular `NaN >= 0` is `False` in pandas. -/
def nonneg : Value → Bool
  | Value.num x => decide (0 ≤ x)
  | _ => false

/-- One loop iteration of lines 120-122 / 126-128: when the column dtype
is numeric, keep the rows whose cell in that column is `>= 0`. -/
def stepCol (hdr : List (String × Dtype)) (rows : List Row) (h : String × Dtype) : List Row :=
  if h.2 = Dtype.numeric then rows.filter (fun r => nonneg (colVal hdr r h.1)) else rows

/-- The columns the two loops of `remove_invalid_rows` run over:
quantity-named columns first, then price-named columns. -/
def rirCols (hdr : List (String × Dtype)) : List (String × Dtype) :=
  hdr.filter (fun h => qtyName h.1) ++ hdr.filter (fun h => priceName h.1)

/-- Stage `remove_invalid_rows`: fold the per-column mask filters over the
quantity columns and then the price columns. -/
def remove_invalid_rows (t : Table) : Table :=
  { t with rows := (rirCols t.header).foldl (stepCol t.header) t.rows }

/-- Keep-predicate of one column of `remove_invalid_rows`: a non-numeric
column filters nothing, a numeric one demands a non-negative cell. -/
def colKeep (hdr : List (String × Dtype)) (h : String × Dtype) (r : Row) : Bool :=
  if h.2 = Dtype.numeric then nonneg (colVal hdr r h.1) else true

/-- Apply `strVal` exactly when the (optional) dtype is `object` — the
shape of a cell after stage 3, as a function of its column dtype. -/
def applyIfObj (d : Option Dtype) (v : Value) : Value :=
  if d = some Dtype.object then strVal v else v

/-! ### Loader and entry point (lines 11-31, 136-162) -/

/-- Outcome of the underlying `pd.read_csv` call on a path: the file is
absent, or it exists but cannot be read/parsed, or it parses to a table.
This abstracts the file system and the pandas parser, which are outside
the repository. -/
inductive ReadResult where
  | notFound
  | parseFail (msg : String)
  | ok (t : Table)

/-- The spec's loader error taxonomy: `NotFoundError` (path absent) and
`ParseError` (any other read/parse failure). -/
inductive LoadError where
  | notFoundError (path : String)
  | parseError (msg : String)
deriving DecidableEq

/-- Function `load_data` (lines 11-31): on success return the table, on failure
print a diagnostic line and re-raise.  The second component is the list
of printed lines. -/
def load_data (fs : String → ReadResult) (path : String) :
    Except LoadError Table × List String :=
  match fs path with
  | ReadResult.ok t => (Except.ok t, ["Successfully loaded rows from " ++ path])
  | ReadResult.notFound =>
      (Except.error (LoadError.notFoundError path), ["Error: File not found at " ++ path])
  | ReadResult.parseFail m =>
      (Except.error (LoadError.parseError m), ["Error loading data: " ++ m])

/-- Stages 2-5 in the order of the entry point (lines 147-150). -/
def clean_pipeline (t : Table) : Table :=
  remove_invalid_rows (handle_missing_values (strip_text_whitespace (clean_column_names t)))

/-- The entry point (lines 136-155): load, clean, and report the result;
a load failure aborts before any cleaning. -/
def pipeline_main (fs : String → ReadResult) (raw : String) : Except LoadError Table :=
  match (load_data fs raw).1 with
  | Except.ok t => Except.ok (clean_pipeline t)
  | Except.error e => Except.error e

/-- Line 153 (`df_clean.to_csv(...)`) runs exactly when the pipeline
reached it, i.e. when no stage raised. -/
def writes_output (fs : String → ReadResult) (raw : String) : Bool :=
  match pipeline_main fs raw with
  | Except.ok _ => true
  | Except.error _ => false

/-! ### Concrete tables used by counterexamples and witnesses -/

/-- A table with one numeric quantity column whose single row holds a
missing value. -/
def tMissingQty : Table :=
  { header := [("qty", Dtype.numeric)], rows := [[Value.na]] }

/-- A table with one object-dtype critical column holding a
whitespace-only string. -/
def tWsQty : Table :=
  { header := [("qty", Dtype.object)], rows := [[Value.text "   "]] }

/-- A table with no critical column at all. -/
def tNoCrit : Table :=
  { header := [("region", Dtype.object)], rows := [[Value.text "north"]] }

/-- A table with a numeric price column: one valid row, one negative row. -/
def tPrice : Table :=
  { header := [("unit_price", Dtype.numeric)],
    rows := [[Value.num 3], [Value.num (-5)]] }

/-! ## Helper lemmas -/

theorem allowed_not_ws (c : Char) (h : isAllowedChar c = true) : wsChar c = false := by
  simp only [isAllowedChar, Bool.or_eq_true, Bool.and_eq_true, decide_eq_true_eq] at h
  simp only [wsChar, Bool.or_eq_false_iff, decide_eq_false_iff_not]
  omega

theorem allowed_lowerChar (c : Char) (h : isAllowedChar c = true) : lowerChar c = c := by
  simp only [isAllowedChar, Bool.or_eq_true, Bool.and_eq_true, decide_eq_true_eq] at h
  unfold lowerChar
  rw [if_neg (by omega : ¬(65 ≤ c.toNat ∧ c.toNat ≤ 90))]

theorem allowed_replChar (c : Char) (h : isAllowedChar c = true) : replChar c = c := by
  simp only [isAllowedChar, Bool.or_eq_true, Bool.and_eq_true, decide_eq_true_eq] at h
  unfold replChar
  rw [if_neg (by omega : ¬(c.toNat = 32))]

theorem map_fix {α : Type} (f : α → α) (l : List α) (h : ∀ x ∈ l, f x = x) :
    l.map f = l := by
  induction l with
  | nil => rfl
  | cons a as ih =>
      simp only [List.map_cons]
      rw [h a (List.mem_cons_self a as), ih (fun x hx => h x (List.mem_cons_of_mem a hx))]

theorem dropWhile_no {α : Type} (p : α → Bool) (l : List α) (h : ∀ x ∈ l, p x = false) :
    l.dropWhile p = l := by
  cases l with
  | nil => rfl
  | cons a as => simp [List.dropWhile_cons, h a (List.mem_cons_self a as)]

theorem trim_no_ws (l : List Char) (h : ∀ c ∈ l, wsChar c = false) : trimChars l = l := by
  unfold trimChars
  rw [dropWhile_no wsChar l h]
  rw [dropWhile_no wsChar l.reverse (fun c hc => h c (List.mem_reverse.mp hc))]
  exact List.reverse_reverse l

theorem normalizeChars_allowed (l : List Char) :
    ∀ c ∈ normalizeChars l, isAllowedChar c = true := by
  intro c hc
  unfold normalizeChars at hc
  exact (List.mem_filter.mp hc).2

theorem normalizeChars_fix (l : List Char) (h : ∀ c ∈ l, isAllowedChar c = true) :
    normalizeChars l = l := by
  unfold normalizeChars
  rw [trim_no_ws l (fun c hc => allowed_not_ws c (h c hc))]
  rw [map_fix lowerChar l (fun c hc => allowed_lowerChar c (h c hc))]
  rw [map_fix replChar l (fun c hc => allowed_replChar c (h c hc))]
  exact List.filter_eq_self.mpr h

theorem normalizeChars_idem (l : List Char) :
    normalizeChars (normalizeChars l) = normalizeChars l :=
  normalizeChars_fix _ (normalizeChars_allowed l)

theorem normalizeName_idem (s : String) :
    normalizeName (normalizeName s) = normalizeName s := by
  show String.mk (normalizeChars (normalizeChars s.data)) = String.mk (normalizeChars s.data)
  rw [normalizeChars_idem]

theorem stepCol_eq_filter (hdr : List (String × Dtype)) (rows : List Row)
    (h : String × Dtype) : stepCol hdr rows h = rows.filter (fun r => colKeep hdr h r) := by
  obtain ⟨nm, d⟩ := h
  cases d <;> simp [stepCol, colKeep]

theorem foldl_stepCol (hdr : List (String × Dtype)) (cols : List (String × Dtype)) :
    ∀ rows : List Row,
      cols.foldl (stepCol hdr) rows
        = rows.filter (fun r => cols.all (fun h => colKeep hdr h r)) := by
  induction cols with
  | nil => intro rows; simp
  | cons c cs ih =>
      intro rows
      rw [List.foldl_cons, ih, stepCol_eq_filter, List.filter_filter]
      apply List.filter_congr
      intro r _
      simp [List.all_cons, Bool.and_comm]

theorem rir_rows (t : Table) :
    (remove_invalid_rows t).rows
      = t.rows.filter (fun r => (rirCols t.header).all (fun h => colKeep t.header h r)) :=
  foldl_stepCol t.header (rirCols t.header) t.rows

theorem mem_rirCols (hdr : List (String × Dtype)) (h : String × Dtype) :
    h ∈ rirCols hdr ↔ h ∈ hdr ∧ (qtyName h.1 || priceName h.1) = true := by
  simp only [rirCols, List.mem_append, List.mem_filter, Bool.or_eq_true]
  tauto

theorem hmv_rows_subset (t : Table) :
    ∀ r ∈ (handle_missing_values t).rows, r ∈ t.rows := by
  intro r hr
  unfold handle_missing_values at hr
  by_cases hc : (critical_columns t).isEmpty
  · rw [if_pos hc] at hr; exact hr
  · rw [if_neg hc] at hr; exact (List.mem_filter.mp hr).1

theorem nonneg_iff (v : Value) :
    nonneg v = true ↔ ∃ x : Int, v = Value.num x ∧ 0 ≤ x := by
  cases v with
  | num x => simp [nonneg]
  | text s => simp [nonneg]
  | na => simp [nonneg]

theorem colDtype_of_nodup (hdr : List (String × Dtype))
    (hnd : (hdr.map Prod.fst).Nodup) (h : String × Dtype) (hm : h ∈ hdr) :
    colDtype hdr h.1 = some h.2 := by
  induction hdr with
  | nil => cases hm
  | cons a as ih =>
      rw [List.map_cons, List.nodup_cons] at hnd
      rcases List.mem_cons.mp hm with rfl | hm'
      · simp [colDtype]
      · have hne : ¬ (a.1 = h.1) := by
          intro he
          exact hnd.1 (he ▸ List.mem_map_of_mem Prod.fst hm')
        simp only [colDtype, if_neg hne]
        exact ih hnd.2 hm'

theorem colVal_valOk (hdr : List (String × Dtype)) :
    ∀ (r : Row), rowWF hdr r = true → ∀ (name : String) (d : Dtype),
      colDtype hdr name = some d → valOk d (colVal hdr r name) = true := by
  induction hdr with
  | nil =>
      intro r _ name d hd
      simp [colDtype] at hd
  | cons a as ih =>
      intro r hwf name d hd
      cases r with
      | nil => simp [rowWF] at hwf
      | cons v vs =>
          simp only [rowWF, Bool.and_eq_true] at hwf
          by_cases hn : a.1 = name
          · simp only [colDtype, if_pos hn, Option.some.injEq] at hd
            simp only [colVal, if_pos hn]
            rw [← hd]
            exact hwf.1
          · simp only [colDtype, if_neg hn] at hd
            simp only [colVal, if_neg hn]
            exact ih vs hwf.2 name d hd

theorem dropWhile_all {α : Type} (p : α → Bool) (l : List α) (h : ∀ x ∈ l, p x = true) :
    l.dropWhile p = [] := by
  induction l with
  | nil => rfl
  | cons a as ih =>
      rw [List.dropWhile_cons, if_pos (h a (List.mem_cons_self a as))]
      exact ih (fun x hx => h x (List.mem_cons_of_mem a hx))

theorem trim_all_ws (l : List Char) (h : ∀ c ∈ l, wsChar c = true) : trimChars l = [] := by
  unfold trimChars
  rw [dropWhile_all wsChar l h]
  rfl

theorem pyStrip_ws (s : String) (h : ∀ c ∈ s.data, wsChar c = true) : pyStrip s = "" := by
  unfold pyStrip
  rw [trim_all_ws s.data h]

theorem colVal_strip_row (hdr : List (String × Dtype)) :
    ∀ (r : Row) (name : String),
      colVal hdr (strip_row hdr r) name
        = applyIfObj (colDtype hdr name) (colVal hdr r name) := by
  induction hdr with
  | nil =>
      intro r name
      show Value.na = applyIfObj none Value.na
      unfold applyIfObj
      rw [if_neg (by simp)]
  | cons a as ih =>
      intro r name
      cases r with
      | nil =>
          show Value.na = applyIfObj (colDtype (a :: as) name) Value.na
          unfold applyIfObj
          split
          · rfl
          · rfl
      | cons v vs =>
          show colVal (a :: as) (stripEntry a v :: strip_row as vs) name
            = applyIfObj (colDtype (a :: as) name) (colVal (a :: as) (v :: vs) name)
          by_cases hn : a.1 = name
          · simp only [colVal, colDtype, if_pos hn]
            unfold stripEntry applyIfObj
            by_cases ho : a.2 = Dtype.object
            · rw [if_pos ho, if_pos (by rw [ho])]
            · rw [if_neg ho, if_neg (by simp [ho])]
          · simp only [colVal, colDtype, if_neg hn]
            exact ih vs name

/-! ## Claim theorems -/

/-- Claim C6: column-name normalization (strip, lowercase, space to
underscore, drop characters outside `[a-z0-9_]`) is idempotent — applying
`clean_column_names` to an already-normalized table yields the same
column names (indeed the same table). -/
theorem spec_c6 (t : Table) :
    clean_column_names (clean_column_names t) = clean_column_names t := by
  unfold clean_column_names
  congr 1
  apply map_fix
  intro x hx
  obtain ⟨a, _, rfl⟩ := List.mem_map.mp hx
  show (normalizeName (normalizeName a.1), a.2) = (normalizeName a.1, a.2)
  rw [normalizeName_idem]

/-- Claim C5: the two filter stages never increase the row count, and the
other two stages preserve it exactly — no stage of the pipeline ever adds
rows. -/
theorem spec_c5 (t : Table) :
    (handle_missing_values t).rows.length ≤ t.rows.length ∧
    (remove_invalid_rows t).rows.length ≤ t.rows.length ∧
    (clean_column_names t).rows.length = t.rows.length ∧
    (strip_text_whitespace t).rows.length = t.rows.length := by
  refine ⟨?_, ?_, rfl, ?_⟩
  · unfold handle_missing_values
    by_cases hc : (critical_columns t).isEmpty
    · rw [if_pos hc]
    · rw [if_neg hc]
      exact List.length_filter_le _ t.rows
  · rw [rir_rows]
    exact List.length_filter_le _ t.rows
  · exact List.length_map t.rows (strip_row t.header)

/-- Claim C9: the set of column names (indeed the whole header) is
unchanged by `strip_text_whitespace`, `handle_missing_values` and
`remove_invalid_rows`; `clean_column_names` leaves the rows untouched,
and `strip_text_whitespace` preserves the row count, so only the two
filter stages can alter the row count and only `clean_column_names` the
names. -/
theorem spec_c9 (t : Table) :
    (strip_text_whitespace t).header = t.header ∧
    (handle_missing_values t).header = t.header ∧
    (remove_invalid_rows t).header = t.header ∧
    (clean_column_names t).rows = t.rows ∧
    (strip_text_whitespace t).rows.length = t.rows.length := by
  refine ⟨rfl, ?_, rfl, rfl, List.length_map t.rows (strip_row t.header)⟩
  unfold handle_missing_values
  by_cases hc : (critical_columns t).isEmpty
  · rw [if_pos hc]
  · rw [if_neg hc]

/-- Claim C3: after `handle_missing_values`, every remaining row is an
input row with a present value in every critical column (a column whose
name contains `price`, `quantity`, or `qty`), and every input row with a
present value in every critical column is retained — so exactly the rows
lacking a value in some critical column are removed. -/
theorem spec_c3 (t : Table) :
    (∀ r ∈ (handle_missing_values t).rows,
      r ∈ t.rows ∧ ∀ name ∈ critical_columns t, present (colVal t.header r name) = true) ∧
    (∀ r ∈ t.rows,
      (∀ name ∈ critical_columns t, present (colVal t.header r name) = true) →
      r ∈ (handle_missing_values t).rows) := by
  unfold handle_missing_values
  by_cases hc : (critical_columns t).isEmpty
  · rw [if_pos hc]
    have hnil : critical_columns t = [] := List.isEmpty_iff.mp hc
    constructor
    · intro r hr
      refine ⟨hr, ?_⟩
      rw [hnil]
      intro name hn
      cases hn
    · intro r hr _
      exact hr
  · rw [if_neg hc]
    constructor
    · intro r hr
      obtain ⟨hmem, hall⟩ := List.mem_filter.mp hr
      refine ⟨hmem, ?_⟩
      unfold rowPresentAll at hall
      intro name hn
      exact List.all_eq_true.mp hall name hn
    · intro r hr hp
      refine List.mem_filter.mpr ⟨hr, ?_⟩
      unfold rowPresentAll
      exact List.all_eq_true.mpr (fun name hn => hp name hn)

/-- Claim C3 witness: in a table whose `price` column holds `1` in its
first row, that row survives `handle_missing_values`. -/
theorem spec_c3_witness :
    [Value.num 1] ∈ (handle_missing_values
      { header := [("price", Dtype.numeric)],
        rows := [[Value.num 1], [Value.na]] }).rows :=
  (spec_c3 { header := [("price", Dtype.numeric)],
             rows := [[Value.num 1], [Value.na]] }).2
    [Value.num 1] (by decide) (by decide)

/-- Claim C7: a table with no column name containing `price`, `quantity`
or `qty` passes `handle_missing_values` unchanged, and the warning branch
(line 99) is taken instead of any failure. -/
theorem spec_c7 (t : Table) (h : ∀ hc ∈ t.header, critName hc.1 = false) :
    handle_missing_values t = t ∧ missing_value_warning t = true := by
  have hnil : critical_columns t = [] := by
    unfold critical_columns
    rw [List.filter_eq_nil_iff]
    intro a ha
    obtain ⟨hc, hm, rfl⟩ := List.mem_map.mp ha
    simp [h hc hm]
  have he : (critical_columns t).isEmpty = true := by rw [hnil]; rfl
  constructor
  · unfold handle_missing_values
    rw [if_pos he]
  · unfold missing_value_warning
    rw [he]

/-- Claim C7 witness: the table with single column `region` passes
through unchanged and triggers the warning. -/
theorem spec_c7_witness :
    handle_missing_values tNoCrit = tNoCrit ∧ missing_value_warning tNoCrit = true :=
  spec_c7 tNoCrit (by decide)

/-- Claim C4: after `remove_invalid_rows`, every column whose name
matches the `quantity`/`qty`/`price` patterns and whose dtype is numeric
holds only non-negative numbers in the remaining rows. -/
theorem spec_c4 (t : Table) (h : String × Dtype) (hmem : h ∈ t.header)
    (hpat : (qtyName h.1 || priceName h.1) = true) (hnum : h.2 = Dtype.numeric) :
    ∀ r ∈ (remove_invalid_rows t).rows,
      ∃ x : Int, colVal (remove_invalid_rows t).header r h.1 = Value.num x ∧ 0 ≤ x := by
  intro r hr
  rw [rir_rows] at hr
  obtain ⟨_, hall⟩ := List.mem_filter.mp hr
  have hk := List.all_eq_true.mp hall h ((mem_rirCols t.header h).mpr ⟨hmem, hpat⟩)
  unfold colKeep at hk
  rw [if_pos hnum] at hk
  exact (nonneg_iff _).mp hk

/-- Claim C4 witness: in `tPrice` the surviving row holds a non-negative
number in the `unit_price` column. -/
theorem spec_c4_witness :
    ∃ x : Int,
      colVal (remove_invalid_rows tPrice).header [Value.num 3] "unit_price" = Value.num x
        ∧ 0 ≤ x :=
  spec_c4 tPrice ("unit_price", Dtype.numeric) (by decide) (by decide) rfl
    [Value.num 3] (by decide)

/-- Claim C1 counterexample: in `tMissingQty` the single row holds no
negative number anywhere — its only cell, in the numeric `qty` column, is
missing — yet `remove_invalid_rows` removes it, because the pandas mask
`df[col] >= 0` is false on `NaN`.  So a row with no negative value is not
retained, refuting the claimed "if and only if". -/
theorem spec_c1_cex :
    [Value.na] ∈ tMissingQty.rows ∧
    [Value.na] ∉ (remove_invalid_rows tMissingQty).rows ∧
    tMissingQty.header = [("qty", Dtype.numeric)] ∧
    colVal tMissingQty.header [Value.na] "qty" = Value.na := by decide

/-- Claim C1 (amended): for a well-typed table with distinct column
names, `remove_invalid_rows` removes a row if and only if some column
whose name contains `quantity`, `qty`, or `price` and whose dtype is
numeric holds a negative number or a missing value in that row; rows with
no such negative or missing value are retained. -/
theorem spec_c1 (t : Table) (hwf : t.wf = true)
    (hnd : (t.header.map Prod.fst).Nodup) (r : Row) (hr : r ∈ t.rows) :
    r ∉ (remove_invalid_rows t).rows ↔
      ∃ h ∈ t.header, (qtyName h.1 || priceName h.1) = true ∧ h.2 = Dtype.numeric ∧
        (colVal t.header r h.1 = Value.na ∨
          ∃ x : Int, colVal t.header r h.1 = Value.num x ∧ x < 0) := by
  constructor
  · intro hno
    have hkeep : ¬ ((rirCols t.header).all (fun h => colKeep t.header h r) = true) := by
      intro hk
      exact hno (by rw [rir_rows]; exact List.mem_filter.mpr ⟨hr, hk⟩)
    rw [List.all_eq_true] at hkeep
    push_neg at hkeep
    obtain ⟨h, hhm, hkf⟩ := hkeep
    obtain ⟨hmem, hpat⟩ := (mem_rirCols t.header h).mp hhm
    unfold colKeep at hkf
    by_cases hn : h.2 = Dtype.numeric
    · rw [if_pos hn] at hkf
      refine ⟨h, hmem, hpat, hn, ?_⟩
      have hd : colDtype t.header h.1 = some h.2 := colDtype_of_nodup t.header hnd h hmem
      have hok : valOk h.2 (colVal t.header r h.1) = true :=
        colVal_valOk t.header r (List.all_eq_true.mp hwf r hr) h.1 h.2 hd
      rw [hn] at hok
      cases hv : colVal t.header r h.1 with
      | na => exact Or.inl rfl
      | num x =>
          right
          refine ⟨x, rfl, ?_⟩
          rw [hv] at hkf
          simp [nonneg] at hkf
          omega
      | text s =>
          rw [hv] at hok
          simp [valOk] at hok
    · rw [if_neg hn] at hkf
      cases hkf rfl
  · rintro ⟨h, hmem, hpat, hn, hval⟩ hin
    rw [rir_rows] at hin
    obtain ⟨_, hall⟩ := List.mem_filter.mp hin
    have hk := List.all_eq_true.mp hall h ((mem_rirCols t.header h).mpr ⟨hmem, hpat⟩)
    unfold colKeep at hk
    rw [if_pos hn] at hk
    rcases hval with hna | ⟨x, hx, hneg⟩
    · rw [hna] at hk
      simp [nonneg] at hk
    · rw [hx] at hk
      simp [nonneg] at hk
      omega

/-- Claim C1 witness: the amended characterization applied to
`tMissingQty` shows its row is removed (its numeric `qty` cell is
missing). -/
theorem spec_c1_witness :
    [Value.na] ∉ (remove_invalid_rows tMissingQty).rows :=
  (spec_c1 tMissingQty (by decide) (by decide) [Value.na] (by decide)).mpr
    ⟨("qty", Dtype.numeric), by decide, by decide, rfl, Or.inl (by decide)⟩

/-- Claim C2: `strip_text_whitespace` keeps the header, maps every row
through `strip_row`, trims (via `strVal`/`pyStrip`) exactly the cells of
object-dtype columns — selection is by the column's runtime dtype — and
leaves cells of non-object columns unchanged. -/
theorem spec_c2 (t : Table) :
    (strip_text_whitespace t).header = t.header ∧
    (strip_text_whitespace t).rows = t.rows.map (strip_row t.header) ∧
    (∀ (r : Row) (name : String), colDtype t.header name = some Dtype.object →
      colVal t.header (strip_row t.header r) name = strVal (colVal t.header r name)) ∧
    (∀ (r : Row) (name : String) (d : Dtype), colDtype t.header name = some d →
      d ≠ Dtype.object →
      colVal t.header (strip_row t.header r) name = colVal t.header r name) ∧
    (∀ s : String, strVal (Value.text s) = Value.text (pyStrip s)) ∧
    strVal Value.na = Value.na := by
  refine ⟨rfl, rfl, ?_, ?_, fun s => rfl, rfl⟩
  · intro r name hobj
    rw [colVal_strip_row, hobj]
    unfold applyIfObj
    rw [if_pos rfl]
  · intro r name d hd hno
    rw [colVal_strip_row, hd]
    unfold applyIfObj
    rw [if_neg (by simp [hno])]

/-- Claim C2 witness: a text cell of an object column is trimmed. -/
theorem spec_c2_witness :
    colVal [("product", Dtype.object)]
        (strip_row [("product", Dtype.object)] [Value.text " a "]) "product"
      = strVal (Value.text " a ") :=
  (spec_c2 { header := [("product", Dtype.object)], rows := [] }).2.2.1
    [Value.text " a "] "product" (by decide)

/-- Claim C10: a whitespace-only text value becomes the empty string —
not a missing value — under `strip_text_whitespace`; consequently a row
whose critical columns all hold text values (whitespace-only included) is
kept by the subsequent `handle_missing_values`. -/
theorem spec_c10 (t : Table) (r : Row) (hr : r ∈ t.rows)
    (hcrit : ∀ name ∈ critical_columns t,
      ∃ s : String, colVal t.header r name = Value.text s) :
    (∀ s : String, (∀ c ∈ s.data, wsChar c = true) →
      strVal (Value.text s) = Value.text "" ∧ Value.text "" ≠ Value.na) ∧
    strip_row t.header r ∈ (handle_missing_values (strip_text_whitespace t)).rows := by
  constructor
  · intro s hws
    constructor
    · show Value.text (pyStrip s) = Value.text ""
      rw [pyStrip_ws s hws]
    · simp
  · have hmem : strip_row t.header r ∈ (strip_text_whitespace t).rows :=
      List.mem_map_of_mem (strip_row t.header) hr
    unfold handle_missing_values
    by_cases hc : (critical_columns (strip_text_whitespace t)).isEmpty
    · rw [if_pos hc]
      exact hmem
    · rw [if_neg hc]
      refine List.mem_filter.mpr ⟨hmem, ?_⟩
      unfold rowPresentAll
      rw [List.all_eq_true]
      intro name hn
      obtain ⟨s, hs⟩ := hcrit name hn
      show present (colVal t.header (strip_row t.header r) name) = true
      rw [colVal_strip_row, hs]
      unfold applyIfObj
      split
      · rfl
      · rfl

/-- Claim C10 witness: the whitespace-only `qty` cell of `tWsQty` keeps
its row alive through stages 3 and 4. -/
theorem spec_c10_witness :
    strip_row tWsQty.header [Value.text "   "] ∈
      (handle_missing_values (strip_text_whitespace tWsQty)).rows := by
  refine (spec_c10 tWsQty [Value.text "   "] (by decide) ?_).2
  intro name hn
  have hq : name = "qty" := by
    have hcc : critical_columns tWsQty = ["qty"] := by decide
    rw [hcc] at hn
    simpa using hn
  subst hq
  exact ⟨"   ", by decide⟩

/-- Claim C8: when the input path does not exist the loader fails with
`NotFoundError`, and with `ParseError` on any other read/parse failure;
in both cases a diagnostic line is printed, the failure is surfaced to
the caller, and the pipeline writes no output. -/
theorem spec_c8 (fs : String → ReadResult) (path : String) :
    (fs path = ReadResult.notFound →
      (load_data fs path).1 = Except.error (LoadError.notFoundError path) ∧
      (load_data fs path).2 ≠ [] ∧
      writes_output fs path = false) ∧
    (∀ m : String, fs path = ReadResult.parseFail m →
      (load_data fs path).1 = Except.error (LoadError.parseError m) ∧
      (load_data fs path).2 ≠ [] ∧
      writes_output fs path = false) := by
  constructor
  · intro h
    simp [load_data, writes_output, pipeline_main, h]
  · intro m h
    simp [load_data, writes_output, pipeline_main, h]

/-- Claim C8 witness: loading the hardcoded raw path from an empty file
system raises `NotFoundError` and no output is written. -/
theorem spec_c8_witness :
    (load_data (fun _ => ReadResult.notFound) "data/raw/sales_data_raw.csv").1
        = Except.error (LoadError.notFoundError "data/raw/sales_data_raw.csv") ∧
    writes_output (fun _ => ReadResult.notFound) "data/raw/sales_data_raw.csv" = false := by
  have h := (spec_c8 (fun _ => ReadResult.notFound) "data/raw/sales_data_raw.csv").1 rfl
  exact ⟨h.1, h.2.2⟩

end DataCleaning
